import Mathlib

/-!
Verification development for the chatterbox-runpod-serverless repository
(src/config.py, src/inference.py, src/handler.py).

Python strings are modelled as `List Char`; Python `float` values that occur
in configuration constants and request parameters are modelled as exact `Rat`
values of the source literals; fallible Python code is modelled with `Except`.
All definitions are translated from the source files; doc comments name the
source location each definition embeds.
-/

/-- ASCII whitespace as recognised by Python `str.strip()` / `str.split()`
(space, tab, newline, carriage return, vertical tab, form feed; non-ASCII
whitespace is not used by any input considered here). -/
def isWS (c : Char) : Bool :=
  c == ' ' || c == '\t' || c == '\n' || c == '\r' || c == '\x0b' || c == '\x0c'

/-- Helper for `tokens`: `acc` is the reversed partial token being read. -/
def tokensAux (acc : List Char) : List Char → List (List Char)
  | [] => if acc = [] then [] else [acc.reverse]
  | c :: cs =>
    if isWS c then
      if acc = [] then tokensAux [] cs else acc.reverse :: tokensAux [] cs
    else tokensAux (c :: acc) cs

/-- Python `str.split()` with no separator: the maximal runs of
non-whitespace characters, in order.  Used by `_smart_chunk_text`
(src/inference.py line 172, `clause.split()`). -/
def tokens (l : List Char) : List (List Char) := tokensAux [] l

/-- Python `str.lstrip()` (whitespace). -/
def pylstrip (l : List Char) : List Char := l.dropWhile isWS

/-- Python `str.rstrip()` (whitespace). -/
def pyrstrip (l : List Char) : List Char := (l.reverse.dropWhile isWS).reverse

/-- Python `str.strip()` (whitespace from both ends). -/
def pystrip (l : List Char) : List Char := pylstrip (pyrstrip l)

/-- The sentence-ending boundary strings of `_smart_chunk_text`
(src/inference.py line 112). -/
def sentence_endings : List (List Char) :=
  [". ".data, "! ".data, "? ".data, ".\n".data, "!\n".data, "?\n".data]

/-- The clause-boundary strings of `_smart_chunk_text`
(src/inference.py line 114). -/
def clause_boundaries : List (List Char) :=
  [", ".data, "; ".data, ": ".data, " - ".data, " — ".data]

/-- The loop body of `split_at_boundaries` (src/inference.py lines 116-138).
`acc` is the Python variable `current`; `skip` counts characters still to be
jumped over after a boundary match (`i += len(boundary) - 1` in the source:
after a match at position `i` the characters of the boundary other than its
first are consumed without being examined).  The first boundary in `bs` that
is a prefix of the remaining text matches, exactly as the Python `for
boundary in boundaries` loop with its `break`. -/
def split_aux (bs : List (List Char)) : Nat → List Char → List Char → List (List Char)
  | _, acc, [] => if acc = [] then [] else [acc]
  | Nat.succ k, acc, _ :: rest => split_aux bs k acc rest
  | 0, acc, c :: rest =>
    match bs.find? (fun b => b.isPrefixOf (c :: rest)) with
    | some b => (acc ++ [c]) :: split_aux bs (b.length - 1) [] rest
    | none => split_aux bs 0 (acc ++ [c]) rest

/-- `split_at_boundaries(text_segment, boundaries)` of src/inference.py
lines 116-138. -/
def split_at_boundaries (t : List Char) (bs : List (List Char)) : List (List Char) :=
  split_aux bs 0 [] t

/-- The accumulation state of `_smart_chunk_text`: the Python locals
`chunks` and `current_chunk` (src/inference.py lines 109, 144). -/
structure CState where
  chunks : List (List Char)
  current : List Char
deriving DecidableEq

/-- The shared greedy-accumulation step of `_smart_chunk_text`: the three
textually identical blocks at src/inference.py lines 174-179 (words),
182-187 (clauses) and 190-195 (segments):
`if len(current_chunk) + len(piece) + 1 <= max_chars` append with a space,
else flush `current_chunk.strip()` (when non-empty) and restart from the
piece. -/
def addPiece (mc : Nat) (st : CState) (p : List Char) : CState :=
  if st.current.length + p.length + 1 ≤ mc then
    CState.mk st.chunks (if st.current = [] then p else st.current ++ ' ' :: p)
  else
    CState.mk (if st.current = [] then st.chunks else st.chunks ++ [pystrip st.current]) p

/-- The flush `if current_chunk: chunks.append(current_chunk.strip());
current_chunk = ""` of src/inference.py lines 154-156 and 168-170. -/
def hardFlush (st : CState) : CState :=
  if st.current = [] then st else CState.mk (st.chunks ++ [pystrip st.current]) []

/-- The word loop of src/inference.py lines 172-179 (`words = clause.split()`
followed by greedy packing). -/
def processWords (mc : Nat) (st : CState) (ws : List (List Char)) : CState :=
  ws.foldl (addPiece mc) st

/-- The clause loop body of src/inference.py lines 161-187: strip the
clause, skip it if empty, hard-split it by words when it is longer than
`max_chars`, otherwise accumulate it greedily. -/
def processClause (mc : Nat) (st : CState) (clauseRaw : List Char) : CState :=
  let clause := pystrip clauseRaw
  if clause = [] then st
  else if mc < clause.length then
    processWords mc (hardFlush st) (tokens clause)
  else addPiece mc st clause

/-- The segment loop body of src/inference.py lines 146-195: strip the
segment, skip it if empty, split it at clause boundaries when it is longer
than `max_chars`, otherwise accumulate it greedily. -/
def processSegment (mc : Nat) (st : CState) (segRaw : List Char) : CState :=
  let seg := pystrip segRaw
  if seg = [] then st
  else if mc < seg.length then
    (split_at_boundaries seg clause_boundaries).foldl (processClause mc) (hardFlush st)
  else addPiece mc st seg

/-- The final flush of src/inference.py lines 198-199. -/
def flushCur (st : CState) : List (List Char) :=
  if st.current = [] then st.chunks else st.chunks ++ [pystrip st.current]

/-- The chunk list computed by the long-text path of `_smart_chunk_text`
(src/inference.py lines 109-202): sentence split, greedy accumulation with
clause and word fallback, final flush, and the filter
`[c for c in chunks if c.strip()]`. -/
def raw_chunks (text : List Char) (mc : Nat) : List (List Char) :=
  (flushCur ((split_at_boundaries text sentence_endings).foldl
      (processSegment mc) (CState.mk [] []))).filter
    (fun c => !(pystrip c).isEmpty)

/-- `ChatterBoxInference._smart_chunk_text(text, max_chars)`
(src/inference.py lines 92-208): texts no longer than `max_chars` are
returned as the sole chunk unchanged; otherwise the boundary-respecting
accumulation runs, falling back to `[text]` when it produces no chunks. -/
def smart_chunk_text (text : List Char) (mc : Nat) : List (List Char) :=
  if text.length ≤ mc then [text]
  else if raw_chunks text mc = [] then [text]
  else raw_chunks text mc

/-- Python `" ".join(...)`. -/
def spaceJoin : List (List Char) → List Char
  | [] => []
  | [x] => x
  | x :: y :: ys => x ++ ' ' :: spaceJoin (y :: ys)

/-- Concatenation of the whitespace tokens of each string in a list. -/
def tokensJoin (l : List (List Char)) : List (List Char) := (l.map tokens).flatten

/-- `true` iff the string has no whitespace character, i.e. is (part of) a
single whitespace-delimited token. -/
def noWSChunk (c : List Char) : Bool := c.all (fun ch => !isWS ch)

/-! ## Model of src/config.py -/

/-- A Python exception as surfaced by the handler code: only the two kinds
this codebase can raise on the modelled paths. -/
inductive PyErr where
  | attributeError (missing : String)
  | valueError (msg : String)
deriving DecidableEq

deriving instance DecidableEq for Except

/-- A module-level value of config.py.  Environment-dependent entries
(`os.environ.get`) are modelled at their state when the variable is unset or
at the hard-coded default; no theorem below depends on any value, only on
which names exist. -/
inductive CVal where
  | num (q : Rat)
  | str (s : String)
  | strs (l : List String)
  | pynone
deriving DecidableEq

/-- Every module-level name defined by src/config.py (lines 4-62), with the
value of its literal.  Floating-point literals are modelled as the exact
rationals they denote in the source text. -/
def config_table : List (String × CVal) := [
  ("HF_TOKEN", CVal.pynone),
  ("HF_HOME", CVal.str "/runpod-volume/chatterbox/hf_home"),
  ("HF_HUB_CACHE", CVal.str "/runpod-volume/chatterbox/hf_cache"),
  ("S3_ENDPOINT_URL", CVal.pynone),
  ("S3_ACCESS_KEY_ID", CVal.pynone),
  ("S3_SECRET_ACCESS_KEY", CVal.pynone),
  ("S3_BUCKET_NAME", CVal.pynone),
  ("S3_REGION", CVal.str "us-east-1"),
  ("RUNPOD_VOLUME", CVal.str "/runpod-volume"),
  ("CHATTERBOX_DIR", CVal.str "/runpod-volume/chatterbox"),
  ("MODEL_CACHE_DIR", CVal.str "/runpod-volume/chatterbox/models"),
  ("OUTPUT_DIR", CVal.str "/runpod-volume/chatterbox/output"),
  ("AUDIO_PROMPTS_DIR", CVal.str "/runpod-volume/chatterbox/audio_prompts"),
  ("DEFAULT_LANGUAGE", CVal.str "en"),
  ("DEFAULT_SAMPLE_RATE", CVal.num 22050),
  ("MAX_TEXT_LENGTH", CVal.num 2000),
  ("AUDIO_EXTS", CVal.strs [".wav", ".mp3", ".m4a", ".ogg", ".flac", ".webm", ".aac", ".opus"]),
  ("MIN_AUDIO_DURATION", CVal.num 3.0),
  ("MAX_AUDIO_DURATION", CVal.num 30.0),
  ("SUPPORTED_LANGUAGES", CVal.strs ["ar", "da", "de", "el", "en", "es", "fi", "fr",
    "he", "hi", "it", "ja", "ko", "ms", "nl", "no", "pl", "pt", "ru", "sv", "sw", "tr", "zh"]),
  ("DEFAULT_EXAGGERATION", CVal.num 0.5),
  ("DEFAULT_CFG_WEIGHT", CVal.num 0.5),
  ("DEFAULT_TEMPERATURE", CVal.num 0.8),
  ("DEFAULT_REPETITION_PENALTY", CVal.num 2.0),
  ("DEFAULT_MIN_P", CVal.num 0.05),
  ("DEFAULT_TOP_P", CVal.num 1.0),
  ("MIN_EXAGGERATION", CVal.num 0.0),
  ("MAX_EXAGGERATION", CVal.num 1.0),
  ("MIN_CFG_WEIGHT", CVal.num 0.0),
  ("MAX_CFG_WEIGHT", CVal.num 1.0),
  ("MIN_TEMPERATURE", CVal.num 0.1),
  ("MAX_TEMPERATURE", CVal.num 2.0),
  ("MIN_TOP_P", CVal.num 0.0),
  ("MAX_TOP_P", CVal.num 1.0)]

/-- The names defined at module level by src/config.py. -/
def config_defined_names : List String := config_table.map Prod.fst

/-- Python attribute access `config.NAME`: the value when the module defines
the name, `AttributeError` otherwise. -/
def config_get (n : String) : Except PyErr CVal :=
  match config_table.find? (fun p => p.1 == n) with
  | some p => Except.ok p.2
  | none => Except.error (PyErr.attributeError n)

/-- `config.NAME` in a numeric position (the value is coerced by `float()`
or compared numerically; every defined name used this way is numeric). -/
def config_get_num (n : String) : Except PyErr Rat :=
  match config_get n with
  | Except.error e => Except.error e
  | Except.ok (CVal.num q) => Except.ok q
  | Except.ok _ => Except.error (PyErr.valueError n)

/-! ## Model of src/handler.py parameter extraction and streaming -/

/-- A job input dictionary (`job["input"]`), restricted to the keys
src/handler.py reads; a `none` field is an absent key. -/
structure JobInput where
  text : Option (List Char)
  audio_prompt : Option String
  session_id : Option String
  exaggeration : Option Rat
  cfg_weight : Option Rat
  temperature : Option Rat
  repetition_penalty : Option Rat
  min_p : Option Rat
  top_p : Option Rat
  top_k : Option Int
  norm_loudness : Option Bool
deriving DecidableEq

/-- The validated parameter record built at src/handler.py lines 194-206. -/
structure Params where
  text : List Char
  audio_prompt : Option String
  exaggeration : Rat
  cfg_weight : Rat
  temperature : Rat
  repetition_penalty : Rat
  min_p : Rat
  top_p : Rat
  top_k : Int
  norm_loudness : Bool
deriving DecidableEq

/-- Python `int()` applied to a float: truncation toward zero. -/
def pyInt (q : Rat) : Int := Int.tdiv q.num q.den

/-- The ordered list of `config.*` names that the body of
`_extract_and_validate_params` reads (src/handler.py lines 165-192).
Python evaluates `job_input.get(k, config.NAME)` defaults eagerly, so each
name is read even when the key is present in the input. -/
def extract_params_config_reads : List String :=
  ["DEFAULT_EXAGGERATION", "DEFAULT_CFG_WEIGHT", "DEFAULT_TEMPERATURE",
   "DEFAULT_REPETITION_PENALTY", "DEFAULT_MIN_P", "DEFAULT_TOP_P",
   "DEFAULT_TOP_K", "DEFAULT_NORM_LOUDNESS", "MAX_TEXT_LENGTH",
   "MIN_EXAGGERATION", "MAX_EXAGGERATION", "MIN_CFG_WEIGHT", "MAX_CFG_WEIGHT",
   "MIN_TEMPERATURE", "MAX_TEMPERATURE", "MIN_TOP_P", "MAX_TOP_P",
   "MIN_TOP_K", "MAX_TOP_K"]

/-- The message of the error dict at src/handler.py line 159
(apostrophes of the source string omitted). -/
def missing_text_msg : String := "Missing text parameter"

/-- `_extract_and_validate_params(job_input)` (src/handler.py lines
150-208).  The outer `Except PyErr` is an uncaught Python exception; the
inner `Except String Params` is the returned `(params, error)` pair.
Config defaults are read in source order before any validation, so the
first read of an undefined name raises `AttributeError` regardless of the
request contents. -/
def extract_and_validate_params (inp : JobInput) : Except PyErr (Except String Params) :=
  match inp.text with
  | none => Except.ok (Except.error missing_text_msg)
  | some t =>
    if t = [] then Except.ok (Except.error missing_text_msg)
    else
      match config_get_num "DEFAULT_EXAGGERATION" with
      | Except.error e => Except.error e
      | Except.ok dExag =>
      match config_get_num "DEFAULT_CFG_WEIGHT" with
      | Except.error e => Except.error e
      | Except.ok dCfg =>
      match config_get_num "DEFAULT_TEMPERATURE" with
      | Except.error e => Except.error e
      | Except.ok dTemp =>
      match config_get_num "DEFAULT_REPETITION_PENALTY" with
      | Except.error e => Except.error e
      | Except.ok dRep =>
      match config_get_num "DEFAULT_MIN_P" with
      | Except.error e => Except.error e
      | Except.ok dMinP =>
      match config_get_num "DEFAULT_TOP_P" with
      | Except.error e => Except.error e
      | Except.ok dTopP =>
      match config_get_num "DEFAULT_TOP_K" with
      | Except.error e => Except.error e
      | Except.ok dTopK =>
      match config_get "DEFAULT_NORM_LOUDNESS" with
      | Except.error e => Except.error e
      | Except.ok _dNorm =>
      let exaggeration := inp.exaggeration.getD dExag
      let cfg_weight := inp.cfg_weight.getD dCfg
      let temperature := inp.temperature.getD dTemp
      let repetition_penalty := inp.repetition_penalty.getD dRep
      let min_p := inp.min_p.getD dMinP
      let top_p := inp.top_p.getD dTopP
      let top_k := inp.top_k.getD (pyInt dTopK)
      let norm_loudness := inp.norm_loudness.getD true
      match config_get_num "MAX_TEXT_LENGTH" with
      | Except.error e => Except.error e
      | Except.ok maxLen =>
      if maxLen < (t.length : Rat) then
        Except.ok (Except.error "Text length exceeds maximum")
      else
      match config_get_num "MIN_EXAGGERATION" with
      | Except.error e => Except.error e
      | Except.ok minE =>
      match config_get_num "MAX_EXAGGERATION" with
      | Except.error e => Except.error e
      | Except.ok maxE =>
      if ¬ (minE ≤ exaggeration ∧ exaggeration ≤ maxE) then
        Except.ok (Except.error "exaggeration out of range")
      else
      match config_get_num "MIN_CFG_WEIGHT" with
      | Except.error e => Except.error e
      | Except.ok minC =>
      match config_get_num "MAX_CFG_WEIGHT" with
      | Except.error e => Except.error e
      | Except.ok maxC =>
      if ¬ (minC ≤ cfg_weight ∧ cfg_weight ≤ maxC) then
        Except.ok (Except.error "cfg_weight out of range")
      else
      match config_get_num "MIN_TEMPERATURE" with
      | Except.error e => Except.error e
      | Except.ok minT =>
      match config_get_num "MAX_TEMPERATURE" with
      | Except.error e => Except.error e
      | Except.ok maxT =>
      if ¬ (minT ≤ temperature ∧ temperature ≤ maxT) then
        Except.ok (Except.error "temperature out of range")
      else
      match config_get_num "MIN_TOP_P" with
      | Except.error e => Except.error e
      | Except.ok minP =>
      match config_get_num "MAX_TOP_P" with
      | Except.error e => Except.error e
      | Except.ok maxP =>
      if ¬ (minP ≤ top_p ∧ top_p ≤ maxP) then
        Except.ok (Except.error "top_p out of range")
      else
      match config_get_num "MIN_TOP_K" with
      | Except.error e => Except.error e
      | Except.ok minK =>
      match config_get_num "MAX_TOP_K" with
      | Except.error e => Except.error e
      | Except.ok maxK =>
      if ¬ (minK ≤ (top_k : Rat) ∧ (top_k : Rat) ≤ maxK) then
        Except.ok (Except.error "top_k out of range")
      else
        Except.ok (Except.ok (Params.mk t inp.audio_prompt exaggeration cfg_weight
          temperature repetition_penalty min_p top_p top_k norm_loudness))

/-- `ChatterBoxInference.__init__` (src/inference.py lines 87-90): its only
config access, `self.max_chunk_chars = config.MAX_CHUNK_CHARS`; device and
model fields are environment-independent assignments abstracted away. -/
def chatterbox_inference_init : Except PyErr Rat :=
  config_get_num "MAX_CHUNK_CHARS"

/-- The method names defined on class `ChatterBoxInference`
(src/inference.py lines 86-377). -/
def chatterbox_inference_method_names : List String :=
  ["__init__", "_smart_chunk_text", "load_model", "process_audio_prompt", "generate"]

/-- An event yielded by the streaming handler, per the shapes documented at
src/handler.py lines 119-132 and produced at lines 319, 352, 356
(`audio_chunk` payloads abstracted). -/
inductive StreamEvent where
  | streaming (chunk : Nat)
  | complete (total_chunks : Nat)
  | errorEvent (msg : String)
deriving DecidableEq

/-- Message of the `str(e)` for the `AttributeError` raised at
src/handler.py line 338: class `ChatterBoxInference` defines no method
`generate_audio_stream_decoded`, so the attribute access on
`inference_engine` raises inside the `try` and is converted to an error
event at line 356 (apostrophes of the Python message omitted). -/
def missing_stream_method_msg : String :=
  "ChatterBoxInference object has no attribute generate_audio_stream_decoded"

/-- `handler_stream(job_input, output_format)` (src/handler.py lines
314-356): the list of yielded events plus the exception, if any, that
escapes the generator.  `_extract_and_validate_params` runs outside the
`try`, so its `AttributeError` escapes before any event is yielded. -/
def handler_stream_model (inp : JobInput) (output_format : String) :
    List StreamEvent × Option PyErr :=
  match extract_and_validate_params inp with
  | Except.error e => ([], some e)
  | Except.ok (Except.error msg) => ([StreamEvent.errorEvent msg], none)
  | Except.ok (Except.ok _) =>
    if output_format = "pcm_16" then
      ([StreamEvent.errorEvent missing_stream_method_msg], none)
    else
      ([StreamEvent.errorEvent ("Unknown output_format: " ++ output_format)], none)

/-- Outcome of `handler_batch` (src/handler.py lines 211-311) up to the
point where generation would start: the extraction call at line 219 is
outside the `try`, so its exception propagates; an error pair is returned
as-is; otherwise control reaches the generation block at line 235. -/
inductive BatchOutcome where
  | raised (e : PyErr)
  | errorDict (msg : String)
  | proceedsToGeneration (p : Params)
deriving DecidableEq

/-- The front end of `handler_batch` (src/handler.py lines 216-221). -/
def handler_batch_model (inp : JobInput) : BatchOutcome :=
  match extract_and_validate_params inp with
  | Except.error e => BatchOutcome.raised e
  | Except.ok (Except.error m) => BatchOutcome.errorDict m
  | Except.ok (Except.ok p) => BatchOutcome.proceedsToGeneration p

/-- `true` only on error events. -/
def isErrorEvent : StreamEvent → Bool
  | StreamEvent.errorEvent _ => true
  | _ => false

/-! ## Model of src/inference.py: audio-prompt validation and generate -/

/-- `config.AUDIO_PROMPTS_DIR` as a character list (src/config.py line 24). -/
def audio_prompts_dir : List Char := "/runpod-volume/chatterbox/audio_prompts".data

/-- `config.AUDIO_EXTS` as character lists (src/config.py line 32). -/
def audio_exts : List (List Char) :=
  [".wav".data, ".mp3".data, ".m4a".data, ".ogg".data, ".flac".data,
   ".webm".data, ".aac".data, ".opus".data]

/-- The visible filesystem state: the set of existing absolute paths
(files, as checked by `Path.exists`) and whether the audio-prompts
directory itself exists (the `prompts_dir.exists()` check at
src/inference.py line 244).  No symlinks are modelled, so `Path.resolve`
is purely lexical. -/
structure FS where
  files : List (List Char)
  promptsDirExists : Bool

/-- POSIX `Path(a) / b`: `b` when `b` is absolute, else `a ++ "/" ++ b`. -/
def pathJoin (a b : List Char) : List Char :=
  match b with
  | '/' :: _ => b
  | _ => a ++ '/' :: b

/-- One step of lexical path normalisation over components. -/
def resolveStep (acc : List (List Char)) (comp : List Char) : List (List Char) :=
  if comp = [] ∨ comp = ['.'] then acc
  else if comp = ['.', '.'] then acc.dropLast
  else acc ++ [comp]

/-- `Path.resolve()` on an absolute path with no symlinks present: split on
`/`, drop empty and `.` components, let `..` remove the previous
component, and rebuild the absolute path. -/
def resolvePath (p : List Char) : List Char :=
  '/' :: List.intercalate ['/'] ((p.splitOn '/').foldl resolveStep [])

/-- `PurePath.suffix` of a file name: the part from the last dot on, empty
when the only dot is leading or trailing (pathlib: `0 < i < len(name)-1`). -/
def pySuffix (name : List Char) : List Char :=
  match name.reverse.findIdx? (fun c => c == '.') with
  | none => []
  | some j => if j = 0 ∨ j = name.length - 1 then [] else name.drop (name.length - 1 - j)

/-- `full_path.suffix.lower()` (src/inference.py line 260): the extension
of the final path component, lower-cased. -/
def lowerSuffix (full : List Char) : List Char :=
  (pySuffix ((full.splitOn '/').getLastD [])).map Char.toLower

/-- Messages of the `ValueError`s raised by `process_audio_prompt`
(src/inference.py lines 250, 254, 258, 261; f-string arguments appended,
apostrophes and braces of the source text omitted). -/
def invalid_path_msg : String := "Invalid audio_prompt path"

/-- Checks at src/inference.py lines 256-277 once the security check has
passed: existence, then extension; the duration probe at lines 263-275
only logs and never raises. -/
def checkExistsAndExt (fs : FS) (ap full : List Char) : Except PyErr (Option (List Char)) :=
  if !(fs.files.contains full) then
    Except.error (PyErr.valueError ("Audio prompt not found: " ++ String.mk ap))
  else if !(audio_exts.contains (lowerSuffix full)) then
    Except.error (PyErr.valueError ("Unsupported audio format: " ++ String.mk (lowerSuffix full)))
  else Except.ok (some full)

/-- `ChatterBoxInference.process_audio_prompt(audio_prompt_path)`
(src/inference.py lines 230-277).  The `ValueError` raised inside the
`try` at line 250 is itself caught by the `except Exception` at line 251,
which re-raises (with the message of line 254) only when the resolved path
does not start with the literal `config.AUDIO_PROMPTS_DIR` string;
otherwise execution falls through to the existence check.  When the
prompts directory does not exist, no path check happens at all
(line 244-246). -/
def process_audio_prompt (fs : FS) (ap : List Char) : Except PyErr (Option (List Char)) :=
  if ap = [] then Except.ok none
  else
    let full := resolvePath (pathJoin audio_prompts_dir ap)
    let pdir := resolvePath audio_prompts_dir
    if fs.promptsDirExists && !(pdir.isPrefixOf full) then
      if !(audio_prompts_dir.isPrefixOf full) then
        Except.error (PyErr.valueError invalid_path_msg)
      else
        checkExistsAndExt fs ap full
    else
      checkExistsAndExt fs ap full

/-- The state of a constructed `ChatterBoxInference` engine as `generate`
uses it: the `max_chunk_chars` field and whether the loaded model carries
pre-prepared conditionals (`self.model.conds is not None`,
src/inference.py line 318).  Constructing the engine against the actual
config fails (see `chatterbox_inference_init`); this record quantifies
over the states the method body can run in. -/
structure Engine where
  max_chunk_chars : Nat
  has_conds : Bool

/-- One call to `self.model.generate(...)` as issued at src/inference.py
lines 330-341 and 352-363: the chunk text and every keyword argument. -/
structure SynthCall where
  text : List Char
  audio_prompt_path : Option (List Char)
  temperature : Rat
  min_p : Rat
  top_p : Rat
  top_k : Int
  repetition_penalty : Rat
  norm_loudness : Bool
  exaggeration : Rat
  cfg_weight : Rat
deriving DecidableEq

/-- The generation parameters of `ChatterBoxInference.generate`
(src/inference.py lines 279-291). -/
structure GenParams where
  repetition_penalty : Rat
  min_p : Rat
  top_p : Rat
  exaggeration : Rat
  cfg_weight : Rat
  temperature : Rat
  top_k : Rat
  norm_loudness : Bool
deriving DecidableEq

/-- The `model.generate` keyword arguments built from the locals of
`generate` for one chunk (`top_k=int(top_k)` at lines 336 and 358). -/
def mkCall (text : List Char) (app : Option (List Char)) (p : GenParams) : SynthCall :=
  SynthCall.mk text app p.temperature p.min_p p.top_p (pyInt p.top_k)
    p.repetition_penalty p.norm_loudness p.exaggeration p.cfg_weight

/-- Message of the `ValueError` at src/inference.py lines 319-322
(apostrophes omitted). -/
def no_conditionals_msg : String :=
  "Either audio_prompt must be provided for voice cloning, or model must have pre-prepared conditionals"

/-- `ChatterBoxInference.generate(...)` (src/inference.py lines 279-377),
with the neural model abstracted as `synth`, a function from one
`model.generate` call to the sample sequence it returns.  The result on
success is the ordered list of `model.generate` calls issued together
with the sample sequence `generate` returns: the single chunk result
as-is (line 342), or the `np.concatenate` of the per-chunk sample
sequences in chunk order (lines 346-377).  An error result means the
exception is raised before any `model.generate` call. -/
def generate {α : Type} (eng : Engine) (fs : FS) (synth : SynthCall → List α)
    (text : List Char) (p : GenParams) (audio_prompt : List Char) :
    Except PyErr (List SynthCall × List α) :=
  match process_audio_prompt fs audio_prompt with
  | Except.error e => Except.error e
  | Except.ok appPath =>
    if appPath = none ∧ eng.has_conds = false then
      Except.error (PyErr.valueError no_conditionals_msg)
    else
      let chunks := smart_chunk_text text eng.max_chunk_chars
      if chunks.length = 1 then
        let call := mkCall text appPath p
        Except.ok ([call], synth call)
      else
        let calls := chunks.map (fun c => mkCall c appPath p)
        Except.ok (calls, (calls.map synth).flatten)

/-- `true` when the resolved path is strictly outside the directory: it is
neither the directory itself nor below it (`dir ++ "/"` is not a prefix). -/
def outsideDir (dir full : List Char) : Bool :=
  !(full == dir || (dir ++ ['/']).isPrefixOf full)

/-! ## Concrete instances used by counterexamples and witnesses -/

/-- A minimal job input: only `text` is supplied. -/
def inpText (t : String) : JobInput :=
  JobInput.mk (some t.data) none none none none none none none none none none

/-- The failing input of claim C6: `text` plus a `temperature` of `0.07`,
inside the documented range `[0.05, 2.0]` and outside the configured range
`[0.1, 2.0]`. -/
def inpTemp007 : JobInput :=
  JobInput.mk (some "Hello".data) none none none none (some 0.07) none none none none none

/-- Default-like generation parameters for concrete runs of `generate`
(the defaults of src/inference.py lines 279-291). -/
def p0 : GenParams := GenParams.mk 1.2 0.0 0.95 0.0 0.0 0.8 1000 true

/-- A synthesis oracle whose waveform content is irrelevant. -/
def synthU : SynthCall → List Unit := fun _ => []

/-- A synthesis oracle returning one sample per character of the chunk. -/
def synthLen : SynthCall → List Nat := fun c => [c.text.length]

/-- The traversal argument of the C7 counterexample: a sibling directory
that shares `audio_prompts` as a string prefix. -/
def evil_ap : List Char := "../audio_prompts_evil/x.wav".data

/-- Where `evil_ap` resolves: outside the allowed directory. -/
def evil_resolved : List Char := "/runpod-volume/chatterbox/audio_prompts_evil/x.wav".data

/-- Filesystem for the C7 counterexample: the traversal target exists and
the prompts directory exists (so the security check does run). -/
def fs_evil : FS := FS.mk [evil_resolved] true

/-- Filesystem with no files. -/
def fs_empty : FS := FS.mk [] true

/-- Engine without pre-prepared conditionals. -/
def engNoConds : Engine := Engine.mk 100 false

/-- Engine with conditionals and a small `max_chunk_chars` for witnesses. -/
def engConds4 : Engine := Engine.mk 4 true

/-! ## Proof-support definitions -/

/-- Token content of an accumulation state: its flushed chunks followed by
the pending buffer. -/
def stTokens (st : CState) : List (List Char) := tokensJoin st.chunks ++ tokens st.current

/-- What the greedy accumulator may hold or flush: a string within the
length budget, or one free of whitespace (a single token or part of one). -/
def okChunk (mc : Nat) (c : List Char) : Prop := c.length ≤ mc ∨ noWSChunk c = true

/-- Invariant of the accumulation state. -/
def okState (mc : Nat) (st : CState) : Prop :=
  (∀ c ∈ st.chunks, okChunk mc c) ∧ okChunk mc st.current

/-- A boundary whose characters after the first are a non-empty run of
whitespace: splitting at it drops only whitespace. -/
def tailWS (b : List Char) : Prop := b.drop 1 ≠ [] ∧ ∀ c ∈ b.drop 1, isWS c = true

/-- The clause boundaries occurring inside `s` all have whitespace tails
(fails only when `s` contains a dash boundary). -/
def clauseSafe (s : List Char) : Prop := ∀ b ∈ clause_boundaries, b <:+: s → tailWS b

/-- The computation raises a `ValueError` (with some message). -/
def RaisesValueError {β : Type} (r : Except PyErr β) : Prop :=
  ∃ msg, r = Except.error (PyErr.valueError msg)

/-! ## Lemmas about `tokens` -/

/-- A whitespace separator splits the token list of a concatenation. -/
theorem tokensAux_ws_append (w : Char) (hw : isWS w = true) (xs : List Char) :
    ∀ (acc ys : List Char),
      tokensAux acc (xs ++ w :: ys) = tokensAux acc xs ++ tokensAux [] ys := by
  induction xs with
  | nil =>
    intro acc ys
    by_cases ha : acc = [] <;> simp [tokensAux, hw, ha]
  | cons c cs ih =>
    intro acc ys
    by_cases hc : isWS c = true
    · by_cases ha : acc = [] <;> simp [tokensAux, hc, ha, ih]
    · have hc2 : isWS c = false := by simpa using hc
      simp [tokensAux, hc2, ih]

/-- Leading whitespace does not change the token list. -/
theorem tokens_ws_cons (c : Char) (hc : isWS c = true) (l : List Char) :
    tokens (c :: l) = tokens l := by
  simp [tokens, tokensAux, hc]

/-- A leading all-whitespace run does not change the token list. -/
theorem tokens_ws_left (d : List Char) (hd : ∀ c ∈ d, isWS c = true) (l : List Char) :
    tokens (d ++ l) = tokens l := by
  induction d with
  | nil => rfl
  | cons c cs ih =>
    rw [List.cons_append, tokens_ws_cons c (hd c (by simp))]
    exact ih (fun x hx => hd x (by simp [hx]))

/-- An all-whitespace string has no tokens. -/
theorem tokens_all_ws (d : List Char) (hd : ∀ c ∈ d, isWS c = true) : tokens d = [] := by
  have h := tokens_ws_left d hd []
  simpa using h

/-- `tokensAux` on an all-whitespace remainder only flushes the buffer. -/
theorem tokensAux_all_ws (acc : List Char) (d : List Char) (hd : ∀ c ∈ d, isWS c = true) :
    tokensAux acc d = if acc = [] then [] else [acc.reverse] := by
  cases d with
  | nil => rfl
  | cons c cs =>
    have hc : isWS c = true := hd c (by simp)
    have hcs : tokens cs = [] := tokens_all_ws cs (fun x hx => hd x (by simp [hx]))
    rw [tokens] at hcs
    by_cases ha : acc = [] <;> simp [tokensAux, hc, ha, hcs]

/-- A trailing all-whitespace run does not change the token computation. -/
theorem tokensAux_ws_right (d : List Char) (hd : ∀ c ∈ d, isWS c = true)
    (xs : List Char) : ∀ acc : List Char, tokensAux acc (xs ++ d) = tokensAux acc xs := by
  induction xs with
  | nil =>
    intro acc
    rw [List.nil_append, tokensAux_all_ws acc d hd]
    cases acc <;> simp [tokensAux]
  | cons c cs ih =>
    intro acc
    simp only [List.cons_append]
    by_cases hc : isWS c = true
    · by_cases ha : acc = [] <;> simp [tokensAux, hc, ha, ih]
    · have hc2 : isWS c = false := by simpa using hc
      simp [tokensAux, hc2, ih]

/-- Splitting off the trailing whitespace run of a string. -/
theorem pyrstrip_append_takeWhile (l : List Char) :
    pyrstrip l ++ (l.reverse.takeWhile isWS).reverse = l := by
  rw [pyrstrip, ← List.reverse_append, List.takeWhile_append_dropWhile, List.reverse_reverse]

/-- `rstrip` preserves tokens. -/
theorem tokens_pyrstrip (l : List Char) : tokens (pyrstrip l) = tokens l := by
  have hws : ∀ c ∈ (l.reverse.takeWhile isWS).reverse, isWS c = true := by
    intro c hc
    exact List.mem_takeWhile_imp (List.mem_reverse.mp hc)
  conv_rhs => rw [← pyrstrip_append_takeWhile l]
  exact (tokensAux_ws_right _ hws (pyrstrip l) []).symm

/-- `lstrip` preserves tokens. -/
theorem tokens_pylstrip (l : List Char) : tokens (pylstrip l) = tokens l := by
  have h2 := tokens_ws_left (l.takeWhile isWS)
    (fun c hc => List.mem_takeWhile_imp hc) (l.dropWhile isWS)
  rw [List.takeWhile_append_dropWhile] at h2
  exact h2.symm

/-- `strip` preserves tokens. -/
theorem tokens_pystrip (l : List Char) : tokens (pystrip l) = tokens l := by
  rw [pystrip, tokens_pylstrip, tokens_pyrstrip]

/-- A string whose strip is empty has no tokens. -/
theorem tokens_nil_of_pystrip (l : List Char) (h : pystrip l = []) : tokens l = [] := by
  rw [← tokens_pystrip, h]
  rfl

/-- On a whitespace-free string the buffer only grows. -/
theorem tokensAux_no_ws (w : List Char) (hw : ∀ c ∈ w, isWS c = false) :
    ∀ acc : List Char, tokensAux acc w = tokensAux (w.reverse ++ acc) [] := by
  induction w with
  | nil => intro acc; rfl
  | cons c cs ih =>
    intro acc
    have hc : isWS c = false := hw c (by simp)
    simp only [tokensAux, hc, Bool.false_eq_true, if_false]
    rw [ih (fun x hx => hw x (by simp [hx])) (c :: acc)]
    simp [tokensAux]

/-- A non-empty whitespace-free string is its own unique token. -/
theorem tokens_of_token (w : List Char) (hne : w ≠ []) (hw : ∀ c ∈ w, isWS c = false) :
    tokens w = [w] := by
  rw [tokens, tokensAux_no_ws w hw [], List.append_nil, tokensAux]
  simp [List.reverse_eq_nil_iff, hne]

/-- Every token is non-empty and whitespace-free. -/
theorem tokensAux_mem (l : List Char) :
    ∀ acc : List Char, (∀ c ∈ acc, isWS c = false) →
      ∀ w ∈ tokensAux acc l, w ≠ [] ∧ ∀ c ∈ w, isWS c = false := by
  induction l with
  | nil =>
    intro acc hacc w hw
    by_cases ha : acc = []
    · simp [tokensAux, ha] at hw
    · simp only [tokensAux, ha, if_false, List.mem_singleton] at hw
      subst hw
      refine ⟨by simpa using ha, ?_⟩
      intro c hc
      exact hacc c (List.mem_reverse.mp hc)
  | cons c cs ih =>
    intro acc hacc w hw
    by_cases hc : isWS c = true
    · by_cases ha : acc = []
      · rw [tokensAux] at hw
        simp only [hc, if_true, ha] at hw
        exact ih [] (by simp) w hw
      · rw [tokensAux] at hw
        simp only [hc, if_true, ha, if_false, List.mem_cons] at hw
        rcases hw with hw | hw
        · subst hw
          refine ⟨by simpa using ha, ?_⟩
          intro x hx
          exact hacc x (List.mem_reverse.mp hx)
        · exact ih [] (by simp) w hw
    · have hc2 : isWS c = false := by simpa using hc
      rw [tokensAux] at hw
      simp only [hc2, Bool.false_eq_true, if_false] at hw
      refine ih (c :: acc) ?_ w hw
      intro x hx
      rcases List.mem_cons.mp hx with hx | hx
      · subst hx; exact hc2
      · exact hacc x hx

/-- Every element of `tokens l` is non-empty and whitespace-free. -/
theorem tokens_mem (l : List Char) :
    ∀ w ∈ tokens l, w ≠ [] ∧ ∀ c ∈ w, isWS c = false :=
  tokensAux_mem l [] (by simp)

/-- Flattening singletons is the identity. -/
theorem flatten_singletons (l : List (List Char)) :
    (l.map (fun w => [w])).flatten = l := by
  induction l with
  | nil => rfl
  | cons x xs ih => simp [ih]

/-- Retokenising a token list gives it back. -/
theorem tokensJoin_tokens (s : List Char) : tokensJoin (tokens s) = tokens s := by
  rw [tokensJoin]
  have hmap : (tokens s).map tokens = (tokens s).map (fun w => [w]) := by
    apply List.map_congr_left
    intro w hw
    exact tokens_of_token w (tokens_mem s w hw).1 (tokens_mem s w hw).2
  rw [hmap, flatten_singletons]

/-- Tokens across a single-space join. -/
theorem tokens_append_sep (a b : List Char) :
    tokens (a ++ ' ' :: b) = tokens a ++ tokens b :=
  tokensAux_ws_append ' ' (by decide) a [] b

/-- Tokens of a space-join are the concatenated token lists. -/
theorem tokens_spaceJoin (l : List (List Char)) :
    tokens (spaceJoin l) = tokensJoin l := by
  induction l with
  | nil => rfl
  | cons x xs ih =>
    cases xs with
    | nil => simp [spaceJoin, tokensJoin]
    | cons y ys =>
      rw [spaceJoin, tokens_append_sep, ih]
      simp [tokensJoin]

/-! ## Lemmas about `split_at_boundaries` -/

/-- `tokensJoin` over a cons. -/
theorem tokensJoin_cons (x : List Char) (L : List (List Char)) :
    tokensJoin (x :: L) = tokens x ++ tokensJoin L := by
  simp [tokensJoin]

/-- Tokens across a whitespace separator, stated on `tokens`. -/
theorem tokens_ws_append (w : Char) (hw : isWS w = true) (xs ys : List Char) :
    tokens (xs ++ w :: ys) = tokens xs ++ tokens ys :=
  tokensAux_ws_append w hw xs [] ys

/-- Every part `split_aux` produces is a contiguous substring of
`acc ++ l` (the skip counter is only ever non-zero with an empty buffer). -/
theorem split_aux_parts (bs : List (List Char)) :
    ∀ (l : List Char) (k : Nat) (acc : List Char), (k = 0 ∨ acc = []) →
      ∀ p ∈ split_aux bs k acc l, p <:+: acc ++ l := by
  intro l
  induction l with
  | nil =>
    intro k acc _ p hp
    by_cases ha : acc = []
    · simp [split_aux, ha] at hp
    · simp only [split_aux, ha, if_false, List.mem_singleton] at hp
      subst hp
      simp
  | cons c rest ih =>
    intro k acc hka p hp
    cases k with
    | succ k2 =>
      have ha : acc = [] := by
        rcases hka with h0 | ha
        · exact absurd h0 (Nat.succ_ne_zero k2)
        · exact ha
      subst ha
      simp only [split_aux] at hp
      have h2 := ih k2 [] (Or.inr rfl) p hp
      rw [List.nil_append] at h2 ⊢
      exact h2.trans (List.suffix_cons c rest).isInfix
    | zero =>
      cases hfind : bs.find? (fun b => b.isPrefixOf (c :: rest)) with
      | some b =>
        simp only [split_aux, hfind, List.mem_cons] at hp
        rcases hp with hp | hp
        · subst hp
          exact ⟨[], rest, by simp⟩
        · have h2 := ih (b.length - 1) [] (Or.inr rfl) p hp
          rw [List.nil_append] at h2
          have hsuf : rest <:+ acc ++ c :: rest :=
            (List.suffix_cons c rest).trans (List.suffix_append acc (c :: rest))
          exact h2.trans hsuf.isInfix
      | none =>
        simp only [split_aux, hfind] at hp
        have h2 := ih 0 (acc ++ [c]) (Or.inl rfl) p hp
        rw [List.append_assoc, List.singleton_append] at h2
        exact h2

/-- Splitting at boundaries whose occurrences in the scanned region all
have non-empty whitespace tails preserves the token sequence: the parts
hold every token of the input past the skip region, in order. -/
theorem split_aux_tokens (bs : List (List Char)) :
    ∀ (l : List Char) (k : Nat) (acc : List Char), (k = 0 ∨ acc = []) →
      (∀ b ∈ bs, b <:+: l.drop k → tailWS b) →
      tokensJoin (split_aux bs k acc l) = tokens (acc ++ l.drop k) := by
  intro l
  induction l with
  | nil =>
    intro k acc _ _
    by_cases ha : acc = [] <;> simp [split_aux, ha, tokensJoin, tokens, tokensAux]
  | cons c rest ih =>
    intro k acc hka hb
    cases k with
    | succ k2 =>
      have ha : acc = [] := by
        rcases hka with h0 | ha
        · exact absurd h0 (Nat.succ_ne_zero k2)
        · exact ha
      subst ha
      simp only [split_aux]
      exact ih k2 [] (Or.inr rfl) hb
    | zero =>
      cases hfind : bs.find? (fun b => b.isPrefixOf (c :: rest)) with
      | none =>
        simp only [split_aux, hfind]
        have hb2 : ∀ b ∈ bs, b <:+: rest.drop 0 → tailWS b := by
          intro b hm hi
          apply hb b hm
          rw [List.drop_zero] at hi ⊢
          exact hi.trans (List.suffix_cons c rest).isInfix
        have h2 := ih 0 (acc ++ [c]) (Or.inl rfl) hb2
        rw [List.drop_zero] at h2 ⊢
        rw [h2, List.append_assoc, List.singleton_append]
      | some b =>
        have hbmem : b ∈ bs := List.mem_of_find?_eq_some hfind
        have hbpre : b <+: c :: rest := by
          have h := List.find?_some hfind
          simpa using h
        have htail : tailWS b := by
          apply hb b hbmem
          rw [List.drop_zero]
          exact hbpre.isInfix
        obtain ⟨s, hs⟩ := hbpre
        cases b with
        | nil =>
          exact absurd rfl htail.1
        | cons b0 bd =>
          simp only [List.cons_append] at hs
          injection hs with h1 h2
          subst h1
          have hbdne : bd ≠ [] := htail.1
          have hbdws : ∀ x ∈ bd, isWS x = true := htail.2
          have hrest : rest = bd ++ s := h2.symm
          have hlen : (b0 :: bd).length - 1 = bd.length := by simp
          have hdrops : rest.drop bd.length = s := by
            rw [hrest]
            exact List.drop_left bd s
          simp only [split_aux, hfind]
          rw [hlen]
          have hb2 : ∀ b2 ∈ bs, b2 <:+: rest.drop bd.length → tailWS b2 := by
            intro b2 hm hi
            apply hb b2 hm
            rw [List.drop_zero]
            rw [hdrops] at hi
            have hsuf : s <:+ b0 :: rest := by
              refine ⟨b0 :: bd, ?_⟩
              simp [hrest]
            exact hi.trans hsuf.isInfix
          have hrec := ih bd.length [] (Or.inr rfl) hb2
          rw [List.nil_append, hdrops] at hrec
          rw [tokensJoin_cons, hrec, List.drop_zero]
          cases bd with
          | nil => exact absurd rfl hbdne
          | cons w d2 =>
            have hw : isWS w = true := hbdws w (by simp)
            have hd2 : ∀ x ∈ d2, isWS x = true := fun x hx => hbdws x (by simp [hx])
            rw [hrest]
            have hre : acc ++ b0 :: ((w :: d2) ++ s) = (acc ++ [b0]) ++ w :: (d2 ++ s) := by
              simp
            rw [hre, tokens_ws_append w hw (acc ++ [b0]) (d2 ++ s), tokens_ws_left d2 hd2 s]

/-! ## Token bookkeeping of the greedy accumulator -/

/-- `tokens` of the empty string. -/
theorem tokens_nil : tokens [] = [] := rfl

/-- `tokensJoin` distributes over append. -/
theorem tokensJoin_append (l₁ l₂ : List (List Char)) :
    tokensJoin (l₁ ++ l₂) = tokensJoin l₁ ++ tokensJoin l₂ := by
  simp [tokensJoin]

/-- `tokensJoin` of a singleton. -/
theorem tokensJoin_singleton (x : List Char) : tokensJoin [x] = tokens x := by
  simp [tokensJoin]

/-- The accumulation step adds exactly the piece's tokens. -/
theorem stTokens_addPiece (mc : Nat) (st : CState) (p : List Char) :
    stTokens (addPiece mc st p) = stTokens st ++ tokens p := by
  unfold addPiece
  split_ifs with h1 h2 h3
  · simp [stTokens, h2, tokens_nil]
  · simp [stTokens, tokens_append_sep, List.append_assoc]
  · simp [stTokens, h3, tokens_nil]
  · simp [stTokens, tokensJoin_append, tokensJoin_singleton, tokens_pystrip,
      List.append_assoc]

/-- Flushing moves tokens from the buffer to the chunks. -/
theorem stTokens_hardFlush (st : CState) : stTokens (hardFlush st) = stTokens st := by
  unfold hardFlush
  split_ifs with h
  · rfl
  · simp [stTokens, tokensJoin_append, tokensJoin_singleton, tokens_pystrip, tokens_nil]

/-- The word loop adds exactly the words' tokens. -/
theorem stTokens_processWords (mc : Nat) (ws : List (List Char)) :
    ∀ st : CState, stTokens (processWords mc st ws) = stTokens st ++ tokensJoin ws := by
  induction ws with
  | nil => intro st; simp [processWords, tokensJoin]
  | cons w ws ih =>
    intro st
    rw [processWords, List.foldl_cons]
    have h := ih (addPiece mc st w)
    rw [processWords] at h
    rw [h, stTokens_addPiece, tokensJoin_cons, List.append_assoc]

/-- The clause step adds exactly the clause's tokens. -/
theorem stTokens_processClause (mc : Nat) (st : CState) (c : List Char) :
    stTokens (processClause mc st c) = stTokens st ++ tokens c := by
  simp only [processClause]
  split_ifs with h1 h2
  · rw [← tokens_pystrip c, h1, tokens_nil, List.append_nil]
  · rw [stTokens_processWords, stTokens_hardFlush, tokensJoin_tokens, tokens_pystrip]
  · rw [stTokens_addPiece, tokens_pystrip]

/-- The clause fold adds exactly the clauses' tokens. -/
theorem stTokens_foldClauses (mc : Nat) (L : List (List Char)) :
    ∀ st : CState, stTokens (L.foldl (processClause mc) st) = stTokens st ++ tokensJoin L := by
  induction L with
  | nil => intro st; simp [tokensJoin]
  | cons c L ih =>
    intro st
    rw [List.foldl_cons, ih (processClause mc st c), stTokens_processClause,
      tokensJoin_cons, List.append_assoc]

/-- The segment step adds exactly the segment's tokens, provided the clause
boundaries occurring in the stripped segment all have whitespace tails. -/
theorem stTokens_processSegment (mc : Nat) (st : CState) (seg : List Char)
    (hcs : clauseSafe (pystrip seg)) :
    stTokens (processSegment mc st seg) = stTokens st ++ tokens seg := by
  simp only [processSegment]
  split_ifs with h1 h2
  · rw [← tokens_pystrip seg, h1, tokens_nil, List.append_nil]
  · rw [stTokens_foldClauses, stTokens_hardFlush]
    have hsplit := split_aux_tokens clause_boundaries (pystrip seg) 0 [] (Or.inl rfl) ?_
    · rw [split_at_boundaries, hsplit, List.nil_append, List.drop_zero, tokens_pystrip]
    · intro b hb hbi
      rw [List.drop_zero] at hbi
      exact hcs b hb hbi
  · rw [stTokens_addPiece, tokens_pystrip]

/-- The segment fold adds exactly the segments' tokens. -/
theorem stTokens_foldSegments (mc : Nat) (segs : List (List Char))
    (hsafe : ∀ s ∈ segs, clauseSafe (pystrip s)) :
    ∀ st : CState, stTokens (segs.foldl (processSegment mc) st) = stTokens st ++ tokensJoin segs := by
  induction segs with
  | nil => intro st; simp [tokensJoin]
  | cons s segs ih =>
    intro st
    rw [List.foldl_cons,
      ih (fun x hx => hsafe x (by simp [hx])) (processSegment mc st s),
      stTokens_processSegment mc st s (hsafe s (by simp)),
      tokensJoin_cons, List.append_assoc]

/-- The final filter drops only token-free chunks. -/
theorem tokensJoin_filter (L : List (List Char)) :
    tokensJoin (L.filter (fun c => !(pystrip c).isEmpty)) = tokensJoin L := by
  induction L with
  | nil => rfl
  | cons x xs ih =>
    rw [List.filter_cons]
    by_cases hx : (pystrip x).isEmpty = true
    · have hnil : pystrip x = [] := by simpa using hx
      simp [hx, ih, tokensJoin_cons, tokens_nil_of_pystrip x hnil]
    · have hx2 : (pystrip x).isEmpty = false := by simpa using hx
      simp [hx2, ih, tokensJoin_cons]

/-- The final flush realises the state's token content. -/
theorem tokensJoin_flushCur (st : CState) : tokensJoin (flushCur st) = stTokens st := by
  unfold flushCur
  split_ifs with h
  · simp [stTokens, h, tokens_nil]
  · simp [stTokens, tokensJoin_append, tokensJoin_singleton, tokens_pystrip]

/-- `pystrip l` is a contiguous substring of `l`. -/
theorem pystrip_infix_self (l : List Char) : pystrip l <:+: l := by
  have h1 : pystrip l <:+ pyrstrip l := List.dropWhile_suffix isWS
  have h2 : pyrstrip l <+: l :=
    ⟨(l.reverse.takeWhile isWS).reverse, pyrstrip_append_takeWhile l⟩
  exact h1.isInfix.trans h2.isInfix

/-- Any substring of a dash-free text is clause-safe: the comma, semicolon
and colon boundaries drop only a space, and the dash boundaries cannot
occur. -/
theorem clauseSafe_of_dash_free (text s : List Char)
    (h1 : ¬ (" - ".data <:+: text)) (h2 : ¬ (" — ".data <:+: text))
    (hs : s <:+: text) : clauseSafe s := by
  intro b hb hbs
  have hbt : b <:+: text := hbs.trans hs
  simp only [clause_boundaries, List.mem_cons, List.not_mem_nil, or_false] at hb
  rcases hb with hb | hb | hb | hb | hb
  · subst hb; exact ⟨by decide, by decide⟩
  · subst hb; exact ⟨by decide, by decide⟩
  · subst hb; exact ⟨by decide, by decide⟩
  · subst hb; exact absurd hbt h1
  · subst hb; exact absurd hbt h2

/-- Main token-preservation result for the long-text path: when the text
contains no dash boundary, the computed chunks carry exactly the tokens of
the text, in order. -/
theorem tokensJoin_raw_chunks (text : List Char) (mc : Nat)
    (h1 : ¬ (" - ".data <:+: text)) (h2 : ¬ (" — ".data <:+: text)) :
    tokensJoin (raw_chunks text mc) = tokens text := by
  rw [raw_chunks, tokensJoin_filter, tokensJoin_flushCur]
  have hsafe : ∀ s ∈ split_at_boundaries text sentence_endings, clauseSafe (pystrip s) := by
    intro s hs
    have hsi : s <:+: text := by
      have h := split_aux_parts sentence_endings text 0 [] (Or.inl rfl) s hs
      simpa using h
    exact clauseSafe_of_dash_free text (pystrip s) h1 h2 ((pystrip_infix_self s).trans hsi)
  rw [stTokens_foldSegments mc _ hsafe]
  have hst : stTokens (CState.mk [] []) = [] := rfl
  rw [hst, List.nil_append, split_at_boundaries]
  have hsent := split_aux_tokens sentence_endings text 0 [] (Or.inl rfl) ?_
  · rw [hsent, List.nil_append, List.drop_zero]
  · intro b hb _
    simp only [sentence_endings, List.mem_cons, List.not_mem_nil, or_false] at hb
    rcases hb with hb | hb | hb | hb | hb | hb <;> subst hb <;>
      exact ⟨by decide, by decide⟩

/-- Stripping each chunk does not change the joint token content. -/
theorem tokensJoin_map_pystrip (L : List (List Char)) :
    tokensJoin (L.map pystrip) = tokensJoin L := by
  simp only [tokensJoin, List.map_map]
  congr 1
  apply List.map_congr_left
  intro x _
  simp [Function.comp, tokens_pystrip]

/-! ## Shape invariant of the greedy accumulator -/

/-- Stripping never lengthens a string. -/
theorem pystrip_length_le (l : List Char) : (pystrip l).length ≤ l.length := by
  have h1 : (pystrip l).length ≤ (pyrstrip l).length := by
    rw [pystrip, pylstrip]
    exact (List.dropWhile_suffix isWS).length_le
  have h2 : (pyrstrip l).length ≤ l.length := by
    rw [pyrstrip, List.length_reverse]
    calc (l.reverse.dropWhile isWS).length
        ≤ l.reverse.length := (List.dropWhile_suffix isWS).length_le
      _ = l.length := List.length_reverse l
  exact h1.trans h2

/-- Characters of the stripped string come from the string. -/
theorem pystrip_subset (l : List Char) : ∀ c ∈ pystrip l, c ∈ l := by
  intro c hc
  exact (pystrip_infix_self l).subset hc

/-- `okChunk` survives stripping. -/
theorem okChunk_pystrip (mc : Nat) (c : List Char) (h : okChunk mc c) :
    okChunk mc (pystrip c) := by
  rcases h with h | h
  · exact Or.inl ((pystrip_length_le c).trans h)
  · right
    rw [noWSChunk, List.all_eq_true] at h ⊢
    intro x hx
    exact h x (pystrip_subset c x hx)

/-- The accumulation step preserves the invariant when the piece itself is
within budget or whitespace-free. -/
theorem okState_addPiece (mc : Nat) (st : CState) (p : List Char)
    (hst : okState mc st) (hp : okChunk mc p) : okState mc (addPiece mc st p) := by
  unfold addPiece
  split_ifs with h1 h2 h3
  · refine ⟨hst.1, Or.inl ?_⟩
    show p.length ≤ mc
    rw [h2] at h1
    simp only [List.length_nil] at h1
    omega
  · refine ⟨hst.1, Or.inl ?_⟩
    show (st.current ++ ' ' :: p).length ≤ mc
    simp only [List.length_append, List.length_cons]
    omega
  · exact ⟨hst.1, hp⟩
  · refine ⟨?_, hp⟩
    intro c hc
    rcases List.mem_append.mp hc with hc | hc
    · exact hst.1 c hc
    · rw [List.mem_singleton] at hc
      subst hc
      exact okChunk_pystrip mc st.current hst.2

/-- Flushing preserves the invariant. -/
theorem okState_hardFlush (mc : Nat) (st : CState) (hst : okState mc st) :
    okState mc (hardFlush st) := by
  unfold hardFlush
  split_ifs with h
  · exact hst
  · refine ⟨?_, Or.inl (by simp)⟩
    intro c hc
    rcases List.mem_append.mp hc with hc | hc
    · exact hst.1 c hc
    · rw [List.mem_singleton] at hc
      subst hc
      exact okChunk_pystrip mc st.current hst.2

/-- The word loop preserves the invariant (words are whitespace-free). -/
theorem okState_processWords (mc : Nat) (ws : List (List Char)) :
    ∀ st : CState, okState mc st → (∀ w ∈ ws, okChunk mc w) →
      okState mc (processWords mc st ws) := by
  induction ws with
  | nil => intro st h _; exact h
  | cons w ws ih =>
    intro st hst hws
    rw [processWords, List.foldl_cons]
    exact ih (addPiece mc st w)
      (okState_addPiece mc st w hst (hws w (by simp)))
      (fun x hx => hws x (by simp [hx]))

/-- The clause step preserves the invariant. -/
theorem okState_processClause (mc : Nat) (st : CState) (c : List Char)
    (hst : okState mc st) : okState mc (processClause mc st c) := by
  simp only [processClause]
  split_ifs with h1 h2
  · exact hst
  · apply okState_processWords mc _ _ (okState_hardFlush mc st hst)
    intro w hw
    right
    rw [noWSChunk, List.all_eq_true]
    intro x hx
    have hws := (tokens_mem (pystrip c) w hw).2 x hx
    simp [hws]
  · exact okState_addPiece mc st _ hst (Or.inl (by omega))

/-- The segment step preserves the invariant. -/
theorem okState_processSegment (mc : Nat) (st : CState) (s : List Char)
    (hst : okState mc st) : okState mc (processSegment mc st s) := by
  simp only [processSegment]
  split_ifs with h1 h2
  · exact hst
  · have hfold : ∀ (L : List (List Char)) (st2 : CState), okState mc st2 →
        okState mc (L.foldl (processClause mc) st2) := by
      intro L
      induction L with
      | nil => intro st2 h; exact h
      | cons cl L ihL =>
        intro st2 h2s
        rw [List.foldl_cons]
        exact ihL _ (okState_processClause mc st2 cl h2s)
    exact hfold _ _ (okState_hardFlush mc st hst)
  · exact okState_addPiece mc st _ hst (Or.inl (by omega))

/-- The segment fold preserves the invariant. -/
theorem okState_foldSegments (mc : Nat) (segs : List (List Char)) :
    ∀ st : CState, okState mc st → okState mc (segs.foldl (processSegment mc) st) := by
  induction segs with
  | nil => intro st h; exact h
  | cons s segs ih =>
    intro st h
    rw [List.foldl_cons]
    exact ih _ (okState_processSegment mc st s h)

/-- Every chunk surviving the final flush satisfies `okChunk`. -/
theorem okChunk_flushCur (mc : Nat) (st : CState) (hst : okState mc st) :
    ∀ c ∈ flushCur st, okChunk mc c := by
  intro c hc
  unfold flushCur at hc
  split_ifs at hc with h
  · exact hst.1 c hc
  · rcases List.mem_append.mp hc with hc | hc
    · exact hst.1 c hc
    · rw [List.mem_singleton] at hc
      subst hc
      exact okChunk_pystrip mc st.current hst.2

/-- Every chunk the long-text path produces is within the length budget or
whitespace-free, and is non-empty. -/
theorem okChunk_raw_chunks (text : List Char) (mc : Nat) :
    ∀ c ∈ raw_chunks text mc, okChunk mc c ∧ c ≠ [] := by
  intro c hc
  rw [raw_chunks, List.mem_filter] at hc
  obtain ⟨hmem, hfilt⟩ := hc
  refine ⟨okChunk_flushCur mc _ (okState_foldSegments mc _ _ ⟨by simp, Or.inl (by simp)⟩) c hmem, ?_⟩
  intro hcnil
  subst hcnil
  exact absurd hfilt (by decide)

/-! ## Helper lemmas about the handler and inference models -/

/-- Parameter extraction reaches the eager read of the undefined
`config.DEFAULT_TOP_K` on every input with a non-empty text, and raises
`AttributeError` there, before any validation. -/
theorem extract_always_attr_error (inp : JobInput) (t : List Char)
    (ht : inp.text = some t) (hne : t ≠ []) :
    extract_and_validate_params inp = Except.error (PyErr.attributeError "DEFAULT_TOP_K") := by
  simp only [extract_and_validate_params, ht, hne, if_false]
  rfl

/-- Extraction returns the missing-text error pair when text is absent. -/
theorem extract_missing_text_none (inp : JobInput) (ht : inp.text = none) :
    extract_and_validate_params inp = Except.ok (Except.error missing_text_msg) := by
  simp [extract_and_validate_params, ht]

/-- Extraction returns the missing-text error pair when text is empty. -/
theorem extract_missing_text_empty (inp : JobInput) (ht : inp.text = some []) :
    extract_and_validate_params inp = Except.ok (Except.error missing_text_msg) := by
  simp [extract_and_validate_params, ht]

/-- The resolved prompts directory is the prompts directory itself. -/
theorem resolve_audio_prompts_dir : resolvePath audio_prompts_dir = audio_prompts_dir := by
  decide

/-- `process_audio_prompt` raises a `ValueError` whenever the resolved
path fails the string-prefix check against an existing prompts directory,
or the file is absent, or its extension is not allow-listed. -/
theorem process_audio_prompt_rejects (fs : FS) (ap : List Char) (hne : ap ≠ [])
    (hbad : (fs.promptsDirExists = true ∧
        (resolvePath audio_prompts_dir).isPrefixOf (resolvePath (pathJoin audio_prompts_dir ap)) = false)
      ∨ fs.files.contains (resolvePath (pathJoin audio_prompts_dir ap)) = false
      ∨ audio_exts.contains (lowerSuffix (resolvePath (pathJoin audio_prompts_dir ap))) = false) :
    RaisesValueError (process_audio_prompt fs ap) := by
  rw [process_audio_prompt, if_neg hne]
  by_cases hsec :
      (fs.promptsDirExists &&
        !((resolvePath audio_prompts_dir).isPrefixOf (resolvePath (pathJoin audio_prompts_dir ap)))) = true
  · rw [if_pos hsec]
    have hnp : (resolvePath audio_prompts_dir).isPrefixOf
        (resolvePath (pathJoin audio_prompts_dir ap)) = false := by
      rcases Bool.and_eq_true_iff.mp hsec with ⟨_, hnot⟩
      simpa using hnot
    rw [resolve_audio_prompts_dir] at hnp
    rw [if_pos (by simp [hnp])]
    exact ⟨invalid_path_msg, rfl⟩
  · rw [if_neg hsec]
    rcases hbad with ⟨hdir, hnp⟩ | hmiss | hext
    · exfalso
      apply hsec
      rw [Bool.and_eq_true_iff]
      exact ⟨hdir, by simp [hnp]⟩
    · rw [checkExistsAndExt, if_pos (by rw [hmiss]; rfl)]
      exact ⟨_, rfl⟩
    · by_cases hmiss2 : fs.files.contains (resolvePath (pathJoin audio_prompts_dir ap)) = true
      · rw [checkExistsAndExt, if_neg (by rw [hmiss2]; decide), if_pos (by rw [hext]; rfl)]
        exact ⟨_, rfl⟩
      · have hm3 : fs.files.contains (resolvePath (pathJoin audio_prompts_dir ap)) = false := by
          simpa using hmiss2
        rw [checkExistsAndExt, if_pos (by rw [hm3]; rfl)]
        exact ⟨_, rfl⟩

/-- `generate` propagates a `ValueError` of the prompt validation without
issuing any `model.generate` call. -/
theorem generate_propagates_value_error {α : Type} (eng : Engine) (fs : FS)
    (synth : SynthCall → List α) (text : List Char) (p : GenParams) (ap : List Char)
    (h : RaisesValueError (process_audio_prompt fs ap)) :
    RaisesValueError (generate eng fs synth text p ap) := by
  obtain ⟨msg, hmsg⟩ := h
  refine ⟨msg, ?_⟩
  simp only [generate, hmsg]

/-! ## Claim theorems -/

/-- C1: `ChatterBoxInference.__init__` (run at handler module load) reads
`config.MAX_CHUNK_CHARS`, and `_extract_and_validate_params` reads
`config.DEFAULT_TOP_K`, `config.DEFAULT_NORM_LOUDNESS`, `config.MIN_TOP_K`
and `config.MAX_TOP_K` for every non-empty text; config.py defines none of
these five names, so the constructor raises `AttributeError`, extraction
raises `AttributeError` on every input with non-empty text, batch requests
never reach generation, and streaming requests never yield a non-error
event. -/
theorem c1_missing_config_names :
    ("MAX_CHUNK_CHARS" ∉ config_defined_names ∧
     "DEFAULT_TOP_K" ∉ config_defined_names ∧
     "DEFAULT_NORM_LOUDNESS" ∉ config_defined_names ∧
     "MIN_TOP_K" ∉ config_defined_names ∧
     "MAX_TOP_K" ∉ config_defined_names) ∧
    ("DEFAULT_TOP_K" ∈ extract_params_config_reads ∧
     "DEFAULT_NORM_LOUDNESS" ∈ extract_params_config_reads ∧
     "MIN_TOP_K" ∈ extract_params_config_reads ∧
     "MAX_TOP_K" ∈ extract_params_config_reads) ∧
    chatterbox_inference_init = Except.error (PyErr.attributeError "MAX_CHUNK_CHARS") ∧
    (∀ (inp : JobInput) (t : List Char), inp.text = some t → t ≠ [] →
      extract_and_validate_params inp = Except.error (PyErr.attributeError "DEFAULT_TOP_K")) ∧
    (∀ (inp : JobInput) (p : Params),
      handler_batch_model inp ≠ BatchOutcome.proceedsToGeneration p) ∧
    (∀ (inp : JobInput) (fmt : String), ∀ ev ∈ (handler_stream_model inp fmt).1,
      isErrorEvent ev = true) := by
  refine ⟨by decide, by decide, rfl, extract_always_attr_error, ?_, ?_⟩
  · intro inp p
    rw [handler_batch_model]
    cases htext : inp.text with
    | none =>
      rw [extract_missing_text_none inp htext]
      simp
    | some t =>
      by_cases hne : t = []
      · subst hne
        rw [extract_missing_text_empty inp htext]
        simp
      · rw [extract_always_attr_error inp t htext hne]
        simp
  · intro inp fmt ev hev
    rw [handler_stream_model] at hev
    cases htext : inp.text with
    | none =>
      rw [extract_missing_text_none inp htext] at hev
      simp at hev
      subst hev
      rfl
    | some t =>
      by_cases hne : t = []
      · subst hne
        rw [extract_missing_text_empty inp htext] at hev
        simp at hev
        subst hev
        rfl
      · rw [extract_always_attr_error inp t htext hne] at hev
        simp at hev

/-- Witness for C1 at a concrete request. -/
theorem c1_missing_config_names_witness :
    extract_and_validate_params (inpText "Hello")
      = Except.error (PyErr.attributeError "DEFAULT_TOP_K") :=
  c1_missing_config_names.2.2.2.1 (inpText "Hello") "Hello".data rfl (by decide)

/-- C2 counterexample: on `"aaa - bbb"` with `maxChars = 5` the clause
split at `" - "` drops the dash, so the rejoined chunks lose the token
`"-"`: the claim as stated is false. -/
theorem c2_counterexample :
    tokens (spaceJoin ((smart_chunk_text "aaa - bbb".data 5).map pystrip))
      ≠ tokens "aaa - bbb".data := by
  decide

/-- C2 (amended): for every text that contains neither `" - "` nor `" — "`
and every maxChars, splitting the original text on whitespace yields
exactly the same token sequence as splitting the single-space join of the
trimmed chunks of `_smart_chunk_text`: no token is dropped or
duplicated. -/
theorem c2_token_preservation_amended (text : List Char) (mc : Nat)
    (h1 : ¬ (" - ".data <:+: text)) (h2 : ¬ (" — ".data <:+: text)) :
    tokens (spaceJoin ((smart_chunk_text text mc).map pystrip)) = tokens text := by
  rw [tokens_spaceJoin, tokensJoin_map_pystrip, smart_chunk_text]
  split_ifs with hlen hraw
  · rw [tokensJoin_singleton]
  · rw [tokensJoin_singleton]
  · exact tokensJoin_raw_chunks text mc h1 h2

/-- Witness for C2 at a concrete dash-free text. -/
theorem c2_token_preservation_witness :
    tokens (spaceJoin ((smart_chunk_text "Hello world. This is a test.".data 15).map pystrip))
      = tokens "Hello world. This is a test.".data :=
  c2_token_preservation_amended "Hello world. This is a test.".data 15
    (by decide) (by decide)

/-- C3 counterexample: the short-text path returns the input unchanged,
not trimmed: on `" a "` with `maxChars = 5` the sole chunk is `" a "`,
not the trimmed `"a"`. -/
theorem c3_counterexample :
    smart_chunk_text " a ".data 5 ≠ [pystrip " a ".data] := by
  decide

/-- C3 (amended): for every text with `len(text) ≤ maxChars`,
`_smart_chunk_text` returns exactly one chunk equal to the input text
unchanged (not trimmed). -/
theorem c3_short_text_amended (text : List Char) (mc : Nat) (h : text.length ≤ mc) :
    smart_chunk_text text mc = [text] := by
  rw [smart_chunk_text, if_pos h]

/-- Witness for C3 at a concrete short text. -/
theorem c3_short_text_witness : smart_chunk_text "ab".data 5 = ["ab".data] :=
  c3_short_text_amended "ab".data 5 (by decide)

/-- C4 counterexample: six spaces with `maxChars = 3` fall through to the
`[text]` fallback; the sole chunk is longer than `maxChars` and is not a
single whitespace-free token, so the claim as stated is false. -/
theorem c4_counterexample :
    smart_chunk_text "      ".data 3 = ["      ".data] ∧
    ¬ ("      ".data.length ≤ 3 ∨
        (noWSChunk "      ".data = true ∧ 3 < "      ".data.length)) := by
  decide

/-- C4 (amended): every chunk `_smart_chunk_text` returns is within the
`maxChars` budget, or is a non-empty whitespace-free string (a single
token emitted whole), or is the whole input text (the short-text and
empty-fallback paths). -/
theorem c4_chunk_bound_amended (text : List Char) (mc : Nat) (c : List Char)
    (hc : c ∈ smart_chunk_text text mc) :
    c.length ≤ mc ∨ (c ≠ [] ∧ noWSChunk c = true) ∨ c = text := by
  rw [smart_chunk_text] at hc
  split_ifs at hc with hlen hraw
  · rw [List.mem_singleton] at hc
    exact Or.inr (Or.inr hc)
  · rw [List.mem_singleton] at hc
    exact Or.inr (Or.inr hc)
  · obtain ⟨hok, hne⟩ := okChunk_raw_chunks text mc c hc
    rcases hok with hok | hok
    · exact Or.inl hok
    · exact Or.inr (Or.inl ⟨hne, hok⟩)

/-- Witness for C4 at a concrete chunk of a concrete run. -/
theorem c4_chunk_bound_witness :
    "aaa.".data.length ≤ 4 ∨ ("aaa.".data ≠ [] ∧ noWSChunk "aaa.".data = true) ∨
      "aaa.".data = "aaa. bbb".data :=
  c4_chunk_bound_amended "aaa. bbb".data 4 "aaa.".data (by decide)

/-- C5: a `pcm_16` streaming request cannot stream.  The class defines no
method `generate_audio_stream_decoded` (the call site of src/handler.py
line 338), and before that call could even fail, parameter extraction
raises `AttributeError` on the undefined `config.DEFAULT_TOP_K`: the
generator yields no `streaming` chunk events and no `complete` event,
contrary to the documented streaming contract. -/
theorem c5_streaming_broken :
    "generate_audio_stream_decoded" ∉ chatterbox_inference_method_names ∧
    handler_stream_model (inpText "Hello") "pcm_16"
      = ([], some (PyErr.attributeError "DEFAULT_TOP_K")) :=
  ⟨by decide, rfl⟩

/-- C6: the configured temperature minimum is the literal `0.1`, not the
documented `0.05`, and a request with `temperature = 0.07` (inside the
documented range) never reaches the temperature check at all: extraction
raises `AttributeError` on `config.DEFAULT_TOP_K` first. -/
theorem c6_temperature_validation_broken :
    config_get "MIN_TEMPERATURE" = Except.ok (CVal.num 0.1) ∧
    (0.05 : Rat) < 0.1 ∧
    extract_and_validate_params inpTemp007
      = Except.error (PyErr.attributeError "DEFAULT_TOP_K") :=
  ⟨rfl, by norm_num, rfl⟩

/-- C7 counterexample: the audio prompt `"../audio_prompts_evil/x.wav"`
resolves outside the allowed directory, yet passes the `startswith` check
(the sibling directory shares the string prefix), and `generate` proceeds
to call `model.generate` instead of raising `ValueError`. -/
theorem c7_counterexample :
    outsideDir audio_prompts_dir (resolvePath (pathJoin audio_prompts_dir evil_ap)) = true ∧
    generate engNoConds fs_evil synthU "hi".data p0 evil_ap
      = Except.ok ([mkCall "hi".data (some evil_resolved) p0], []) :=
  ⟨rfl, rfl⟩

/-- C7 (amended): for every non-empty audio prompt whose resolved path
fails the string-prefix test against the (existing) prompts directory, or
that references an absent file, or whose lower-cased extension is outside
the allowed set, `generate` raises a `ValueError` before invoking
`model.generate` on any chunk (an error result issues no synthesis
call).  A resolved path outside the directory that shares its string
prefix, however, passes the check (see the counterexample). -/
theorem c7_prompt_validation_amended {α : Type} (eng : Engine) (fs : FS)
    (synth : SynthCall → List α) (text : List Char) (p : GenParams) (ap : List Char)
    (hne : ap ≠ [])
    (hbad : (fs.promptsDirExists = true ∧
        (resolvePath audio_prompts_dir).isPrefixOf (resolvePath (pathJoin audio_prompts_dir ap)) = false)
      ∨ fs.files.contains (resolvePath (pathJoin audio_prompts_dir ap)) = false
      ∨ audio_exts.contains (lowerSuffix (resolvePath (pathJoin audio_prompts_dir ap))) = false) :
    RaisesValueError (generate eng fs synth text p ap) :=
  generate_propagates_value_error eng fs synth text p ap
    (process_audio_prompt_rejects fs ap hne hbad)

/-- Witness for C7 at a concrete absent file. -/
theorem c7_prompt_validation_witness :
    RaisesValueError (generate engNoConds fs_empty synthU "hi".data p0 "ghost.wav".data) :=
  c7_prompt_validation_amended engNoConds fs_empty synthU "hi".data p0 "ghost.wav".data
    (by decide) (Or.inr (Or.inl (by decide)))

/-- C8: whenever `_smart_chunk_text` yields `n ≥ 2` chunks and the audio
prompt processing succeeds (with conditionals available when no prompt is
given), `generate` issues exactly one `model.generate` call per chunk, in
chunk order, every call carrying the same `audio_prompt_path` and the same
generation parameters, and returns the concatenation of the per-chunk
sample sequences in that order. -/
theorem c8_multi_chunk_generate {α : Type} (eng : Engine) (fs : FS)
    (synth : SynthCall → List α) (text : List Char) (p : GenParams) (ap : List Char)
    (appPath : Option (List Char))
    (hap : process_audio_prompt fs ap = Except.ok appPath)
    (hconds : ¬ (appPath = none ∧ eng.has_conds = false))
    (hn : 2 ≤ (smart_chunk_text text eng.max_chunk_chars).length) :
    generate eng fs synth text p ap =
      Except.ok ((smart_chunk_text text eng.max_chunk_chars).map (fun c => mkCall c appPath p),
        (((smart_chunk_text text eng.max_chunk_chars).map (fun c => mkCall c appPath p)).map
          synth).flatten) := by
  have hne1 : ¬ ((smart_chunk_text text eng.max_chunk_chars).length = 1) := by omega
  simp only [generate, hap, if_neg hconds, if_neg hne1]

/-- Witness for C8 at a concrete two-chunk text. -/
theorem c8_multi_chunk_generate_witness :
    generate engConds4 fs_empty synthLen "aaa. bbb".data p0 [] =
      Except.ok ((smart_chunk_text "aaa. bbb".data 4).map (fun c => mkCall c none p0),
        (((smart_chunk_text "aaa. bbb".data 4).map (fun c => mkCall c none p0)).map
          synthLen).flatten) :=
  c8_multi_chunk_generate engConds4 fs_empty synthLen "aaa. bbb".data p0 [] none rfl
    (by decide) (by decide)

/-- C9: a streaming request with `output_format = "mp3"` and default
(in-range) generation parameters does not receive the single error event
naming the unknown format: extraction raises `AttributeError` on the
undefined `config.DEFAULT_TOP_K` before the format check, so the
generator yields no event at all and the exception escapes. -/
theorem c9_unknown_format_broken :
    handler_stream_model (inpText "Hello") "mp3"
      = ([], some (PyErr.attributeError "DEFAULT_TOP_K")) := rfl

/-- C10: `_smart_chunk_text` is deterministic: identical `(text,
maxChars)` inputs produce identical chunk sequences (it is modelled by a
pure function of its two arguments; the source reads no other state on
this path). -/
theorem c10_deterministic (t₁ t₂ : List Char) (m₁ m₂ : Nat)
    (ht : t₁ = t₂) (hm : m₁ = m₂) :
    smart_chunk_text t₁ m₁ = smart_chunk_text t₂ m₂ := by
  rw [ht, hm]

/-- Witness for C10 at a concrete input. -/
theorem c10_deterministic_witness :
    smart_chunk_text "Hello world.".data 15 = smart_chunk_text "Hello world.".data 15 :=
  c10_deterministic "Hello world.".data "Hello world.".data 15 15 rfl rfl
